import Mathlib

/-!
Verification development for the QT.AI account fund ledger.

The repository ships the dashboard frontend: the API client
(frontend/src/services/api.ts), the account management UI
(frontend/src/components/account/AccountManagement.tsx), the trading
allocation form, the transaction history view with its mock data, and the
input guards.  The backend ledger engine itself (the handlers behind
POST /accounts/me/deposit, /withdraw, /allocate, /deallocate) is not part
of the sources; its behaviour is modelled here from the specification and
marked as such in the doc comments.  Everything embedded from a shipped
source file cites that file.
-/

namespace QTAI

/-- Modelled from the spec: a numeric amount as received by the (missing)
backend ledger engine.  JavaScript numbers can be NaN, positive or negative
infinity, or a finite value; finite amounts are modelled as integer minor units (one of the two
exact representations the spec names) so that the ledger model is exact. -/
inductive NumInput where
  | nan : NumInput
  | posInf : NumInput
  | negInf : NumInput
  | fin : ℤ → NumInput
deriving DecidableEq

/-- Modelled from the spec: an amount is valid iff it is positive, finite
and not NaN ("All amount inputs are validated as positive, finite, non-NaN
values before any state mutation"). -/
def isValidAmount : NumInput → Bool
  | NumInput.fin q => decide (0 < q)
  | _ => false

/-- Transaction kinds, from the spec data model and matching the
transaction_type strings rendered by the history view. -/
inductive TxKind where
  | deposit : TxKind
  | withdrawal : TxKind
  | allocation : TxKind
  | deallocation : TxKind
deriving DecidableEq

/-- Modelled from the spec: a ledger transaction record (id assigned at
append time, kind, positive amount, asset fields present only for
allocation and deallocation). -/
structure Txn where
  tid : ℕ
  kind : TxKind
  amount : ℤ
  assetType : Option String
  assetId : Option String
deriving DecidableEq

/-- Modelled from the spec: the account balance triple together with the
per-asset allocation map, kept as an association list keyed by
(assetType, assetId). -/
structure Account where
  totalBalance : ℤ
  availableBalance : ℤ
  allocatedBalance : ℤ
  allocations : List ((String × String) × ℤ)
deriving DecidableEq

/-- Modelled from the spec: ledger engine state, the account plus the
append-only transaction log and the next transaction id. -/
structure LedgerState where
  account : Account
  log : List Txn
  nextId : ℕ
deriving DecidableEq

/-- Error taxonomy from the spec (InvalidFilter is omitted; the shipped
history view takes no filter). -/
inductive LedgerError where
  | InvalidAmount : LedgerError
  | InsufficientFunds : LedgerError
  | NoSuchAllocation : LedgerError
  | InsufficientAllocation : LedgerError
deriving DecidableEq

/-- The zero account: all balances 0, no allocations, empty log. -/
def zeroState : LedgerState :=
  ⟨⟨0, 0, 0, []⟩, [], 1⟩

/-- Lookup of an allocation entry in the association list. -/
def lookupAlloc : List ((String × String) × ℤ) → String × String → Option ℤ
  | [], _ => none
  | e :: rest, key => if e.1 = key then some e.2 else lookupAlloc rest key

/-- Replace the first entry for a key, or append it if absent. -/
def setAlloc : List ((String × String) × ℤ) → String × String → ℤ → List ((String × String) × ℤ)
  | [], key, v => [(key, v)]
  | e :: rest, key, v => if e.1 = key then (key, v) :: rest else e :: setAlloc rest key v

/-- Remove every entry for a key. -/
def removeAlloc : List ((String × String) × ℤ) → String × String → List ((String × String) × ℤ)
  | [], _ => []
  | e :: rest, key => if e.1 = key then removeAlloc rest key else e :: removeAlloc rest key

/-- Modelled from the spec: amount validation, performed before any state
mutation; failure is InvalidAmount. -/
def validateAmount (a : NumInput) : Except LedgerError ℤ :=
  match a with
  | NumInput.fin q =>
      if 0 < q then Except.ok q else Except.error LedgerError.InvalidAmount
  | _ => Except.error LedgerError.InvalidAmount

/-- Modelled from the spec: deposit(amount) increases totalBalance and
availableBalance by amount, appends a deposit transaction, returns the
updated snapshot; only precondition is amount > 0. -/
def deposit (s : LedgerState) (a : NumInput) : Except LedgerError LedgerState :=
  match validateAmount a with
  | Except.error e => Except.error e
  | Except.ok q =>
      Except.ok ⟨⟨s.account.totalBalance + q, s.account.availableBalance + q,
          s.account.allocatedBalance, s.account.allocations⟩,
        s.log ++ [⟨s.nextId, TxKind.deposit, q, none, none⟩], s.nextId + 1⟩

/-- Modelled from the spec: withdraw(amount) decreases totalBalance and
availableBalance by amount; requires amount > 0 and
amount ≤ availableBalance, failing with InsufficientFunds otherwise. -/
def withdraw (s : LedgerState) (a : NumInput) : Except LedgerError LedgerState :=
  match validateAmount a with
  | Except.error e => Except.error e
  | Except.ok q =>
      if q ≤ s.account.availableBalance then
        Except.ok ⟨⟨s.account.totalBalance - q, s.account.availableBalance - q,
            s.account.allocatedBalance, s.account.allocations⟩,
          s.log ++ [⟨s.nextId, TxKind.withdrawal, q, none, none⟩], s.nextId + 1⟩
      else Except.error LedgerError.InsufficientFunds

/-- Modelled from the spec: allocate(amount, assetType, assetId) moves
amount from availableBalance to allocatedBalance and increments the
allocation entry, creating it if absent; requires amount > 0 and
amount ≤ availableBalance. -/
def allocate (s : LedgerState) (a : NumInput) (assetType assetId : String) :
    Except LedgerError LedgerState :=
  match validateAmount a with
  | Except.error e => Except.error e
  | Except.ok q =>
      if q ≤ s.account.availableBalance then
        Except.ok ⟨⟨s.account.totalBalance, s.account.availableBalance - q,
            s.account.allocatedBalance + q,
            setAlloc s.account.allocations (assetType, assetId)
              ((lookupAlloc s.account.allocations (assetType, assetId)).getD 0 + q)⟩,
          s.log ++ [⟨s.nextId, TxKind.allocation, q, some assetType, some assetId⟩],
          s.nextId + 1⟩
      else Except.error LedgerError.InsufficientFunds

/-- Modelled from the spec: deallocate(amount, assetType, assetId) moves
amount from allocatedBalance back to availableBalance and decrements the
matching entry; NoSuchAllocation if the entry is absent,
InsufficientAllocation if its value is smaller than amount; the entry is
removed exactly when the resulting value is 0. -/
def deallocate (s : LedgerState) (a : NumInput) (assetType assetId : String) :
    Except LedgerError LedgerState :=
  match validateAmount a with
  | Except.error e => Except.error e
  | Except.ok q =>
      match lookupAlloc s.account.allocations (assetType, assetId) with
      | none => Except.error LedgerError.NoSuchAllocation
      | some v =>
          if v < q then Except.error LedgerError.InsufficientAllocation
          else
            Except.ok ⟨⟨s.account.totalBalance, s.account.availableBalance + q,
                s.account.allocatedBalance - q,
                if v - q = 0 then removeAlloc s.account.allocations (assetType, assetId)
                else setAlloc s.account.allocations (assetType, assetId) (v - q)⟩,
              s.log ++ [⟨s.nextId, TxKind.deallocation, q, some assetType, some assetId⟩],
              s.nextId + 1⟩

/-- One request against the ledger engine, as issued by the API client
(accountAPI.depositFunds, withdrawFunds, allocateFunds, deallocateFunds in
frontend/src/services/api.ts). -/
inductive Op where
  | dep : NumInput → Op
  | wd : NumInput → Op
  | alloc : NumInput → String → String → Op
  | dealloc : NumInput → String → String → Op
deriving DecidableEq

/-- Apply one operation; per the spec a failed operation leaves the state
(snapshot and log) untouched, so errors return the input state. -/
def applyOp (s : LedgerState) (op : Op) : LedgerState :=
  match op with
  | Op.dep a =>
      match deposit s a with
      | Except.ok t => t
      | Except.error _ => s
  | Op.wd a =>
      match withdraw s a with
      | Except.ok t => t
      | Except.error _ => s
  | Op.alloc a x y =>
      match allocate s a x y with
      | Except.ok t => t
      | Except.error _ => s
  | Op.dealloc a x y =>
      match deallocate s a x y with
      | Except.ok t => t
      | Except.error _ => s

/-- Run a sequence of operations from the zero account.  Every reachable
ledger state is runOps of some operation list, and every intermediate
state after a single operation is runOps of the corresponding prefix. -/
def runOps (ops : List Op) : LedgerState :=
  ops.foldl applyOp zeroState

/-- Conservation predicate of the spec data model. -/
def conserves (s : LedgerState) : Prop :=
  s.account.totalBalance = s.account.availableBalance + s.account.allocatedBalance

theorem deposit_ok_inv (s t : LedgerState) (a : NumInput)
    (h : deposit s a = Except.ok t) :
    ∃ q : ℤ, 0 < q ∧ a = NumInput.fin q ∧
      t = ⟨⟨s.account.totalBalance + q, s.account.availableBalance + q,
          s.account.allocatedBalance, s.account.allocations⟩,
        s.log ++ [⟨s.nextId, TxKind.deposit, q, none, none⟩], s.nextId + 1⟩ := by
  unfold deposit validateAmount at h
  cases a with
  | fin q =>
      by_cases hq : 0 < q
      · simp only [if_pos hq] at h
        exact ⟨q, hq, rfl, (Except.ok.injEq _ _).mp h.symm⟩
      · simp [if_neg hq] at h
  | nan => simp at h
  | posInf => simp at h
  | negInf => simp at h

theorem withdraw_ok_inv (s t : LedgerState) (a : NumInput)
    (h : withdraw s a = Except.ok t) :
    ∃ q : ℤ, 0 < q ∧ a = NumInput.fin q ∧ q ≤ s.account.availableBalance ∧
      t = ⟨⟨s.account.totalBalance - q, s.account.availableBalance - q,
          s.account.allocatedBalance, s.account.allocations⟩,
        s.log ++ [⟨s.nextId, TxKind.withdrawal, q, none, none⟩], s.nextId + 1⟩ := by
  unfold withdraw validateAmount at h
  cases a with
  | fin q =>
      by_cases hq : 0 < q
      · simp only [if_pos hq] at h
        by_cases hle : q ≤ s.account.availableBalance
        · simp only [if_pos hle] at h
          exact ⟨q, hq, rfl, hle, (Except.ok.injEq _ _).mp h.symm⟩
        · simp [if_neg hle] at h
      · simp [if_neg hq] at h
  | nan => simp at h
  | posInf => simp at h
  | negInf => simp at h

theorem allocate_ok_inv (s t : LedgerState) (a : NumInput) (x y : String)
    (h : allocate s a x y = Except.ok t) :
    ∃ q : ℤ, 0 < q ∧ a = NumInput.fin q ∧ q ≤ s.account.availableBalance ∧
      t = ⟨⟨s.account.totalBalance, s.account.availableBalance - q,
          s.account.allocatedBalance + q,
          setAlloc s.account.allocations (x, y)
            ((lookupAlloc s.account.allocations (x, y)).getD 0 + q)⟩,
        s.log ++ [⟨s.nextId, TxKind.allocation, q, some x, some y⟩], s.nextId + 1⟩ := by
  unfold allocate validateAmount at h
  cases a with
  | fin q =>
      by_cases hq : 0 < q
      · simp only [if_pos hq] at h
        by_cases hle : q ≤ s.account.availableBalance
        · simp only [if_pos hle] at h
          exact ⟨q, hq, rfl, hle, (Except.ok.injEq _ _).mp h.symm⟩
        · simp [if_neg hle] at h
      · simp [if_neg hq] at h
  | nan => simp at h
  | posInf => simp at h
  | negInf => simp at h

theorem deallocate_ok_inv (s t : LedgerState) (a : NumInput) (x y : String)
    (h : deallocate s a x y = Except.ok t) :
    ∃ q v : ℤ, 0 < q ∧ a = NumInput.fin q ∧
      lookupAlloc s.account.allocations (x, y) = some v ∧ q ≤ v ∧
      t = ⟨⟨s.account.totalBalance, s.account.availableBalance + q,
          s.account.allocatedBalance - q,
          if v - q = 0 then removeAlloc s.account.allocations (x, y)
          else setAlloc s.account.allocations (x, y) (v - q)⟩,
        s.log ++ [⟨s.nextId, TxKind.deallocation, q, some x, some y⟩], s.nextId + 1⟩ := by
  unfold deallocate validateAmount at h
  cases a with
  | fin q =>
      by_cases hq : 0 < q
      · simp only [if_pos hq] at h
        cases hl : lookupAlloc s.account.allocations (x, y) with
        | none => rw [hl] at h; simp at h
        | some v =>
            rw [hl] at h
            by_cases hv : v < q
            · simp [if_pos hv] at h
            · simp only [if_neg hv] at h
              exact ⟨q, v, hq, rfl, rfl, not_lt.mp hv, (Except.ok.injEq _ _).mp h.symm⟩
      · simp [if_neg hq] at h
  | nan => simp at h
  | posInf => simp at h
  | negInf => simp at h

theorem conserves_applyOp (s : LedgerState) (op : Op) (h : conserves s) :
    conserves (applyOp s op) := by
  unfold conserves at h
  cases op with
  | dep a =>
      simp only [applyOp]
      cases hd : deposit s a with
      | ok t =>
          obtain ⟨q, _, _, ht⟩ := deposit_ok_inv s t a hd
          subst ht
          unfold conserves
          simp
          linarith
      | error e => exact h
  | wd a =>
      simp only [applyOp]
      cases hd : withdraw s a with
      | ok t =>
          obtain ⟨q, _, _, _, ht⟩ := withdraw_ok_inv s t a hd
          subst ht
          unfold conserves
          simp
          linarith
      | error e => exact h
  | alloc a x y =>
      simp only [applyOp]
      cases hd : allocate s a x y with
      | ok t =>
          obtain ⟨q, _, _, _, ht⟩ := allocate_ok_inv s t a x y hd
          subst ht
          unfold conserves
          simp
          linarith
      | error e => exact h
  | dealloc a x y =>
      simp only [applyOp]
      cases hd : deallocate s a x y with
      | ok t =>
          obtain ⟨q, v, _, _, _, _, ht⟩ := deallocate_ok_inv s t a x y hd
          subst ht
          unfold conserves
          simp
          linarith
      | error e => exact h

theorem conserves_foldl (ops : List Op) :
    ∀ s : LedgerState, conserves s → conserves (ops.foldl applyOp s) := by
  induction ops with
  | nil => intro s h; exact h
  | cons op rest ih =>
      intro s h
      exact ih (applyOp s op) (conserves_applyOp s op h)

/-- C1: for every sequence of the four mutating operations starting from
the zero account, totalBalance = availableBalance + allocatedBalance holds
in the resulting state; since every intermediate state is runOps of a
prefix, the invariant holds after every single operation. -/
theorem conservation_invariant (ops : List Op) : conserves (runOps ops) := by
  unfold runOps
  refine conserves_foldl ops zeroState ?_
  unfold conserves zeroState
  norm_num

theorem validateAmount_invalid (a : NumInput) (h : isValidAmount a = false) :
    validateAmount a = Except.error LedgerError.InvalidAmount := by
  cases a with
  | fin q =>
      simp only [isValidAmount] at h
      simp only [validateAmount, if_neg (of_decide_eq_false h)]
  | nan => rfl
  | posInf => rfl
  | negInf => rfl

/-- C2: every amount that is non-positive, non-finite or NaN is rejected
by every one of the four mutating operations with InvalidAmount, and the
resulting engine state (snapshot, allocation map and transaction log) is
exactly the input state: nothing is mutated and no transaction is
appended. -/
theorem invalid_amount_rejected (s : LedgerState) (a : NumInput) (x y : String)
    (h : isValidAmount a = false) :
    deposit s a = Except.error LedgerError.InvalidAmount ∧
    withdraw s a = Except.error LedgerError.InvalidAmount ∧
    allocate s a x y = Except.error LedgerError.InvalidAmount ∧
    deallocate s a x y = Except.error LedgerError.InvalidAmount ∧
    applyOp s (Op.dep a) = s ∧ applyOp s (Op.wd a) = s ∧
    applyOp s (Op.alloc a x y) = s ∧ applyOp s (Op.dealloc a x y) = s := by
  have hv := validateAmount_invalid a h
  have hd : deposit s a = Except.error LedgerError.InvalidAmount := by
    unfold deposit; rw [hv]
  have hw : withdraw s a = Except.error LedgerError.InvalidAmount := by
    unfold withdraw; rw [hv]
  have ha : allocate s a x y = Except.error LedgerError.InvalidAmount := by
    unfold allocate; rw [hv]
  have hda : deallocate s a x y = Except.error LedgerError.InvalidAmount := by
    unfold deallocate; rw [hv]
  refine ⟨hd, hw, ha, hda, ?_, ?_, ?_, ?_⟩ <;>
    simp [applyOp, hd, hw, ha, hda]

/-- Concrete instance of the C2 theorem: deposit(-5) on the zero account
fails with InvalidAmount and the state, log included, is unchanged. -/
theorem invalid_amount_rejected_witness :
    isValidAmount (NumInput.fin (-5)) = false ∧
    deposit zeroState (NumInput.fin (-5)) = Except.error LedgerError.InvalidAmount ∧
    applyOp zeroState (Op.dep (NumInput.fin (-5))) = zeroState := by
  have h : isValidAmount (NumInput.fin (-5)) = false := by decide
  have main := invalid_amount_rejected zeroState (NumInput.fin (-5)) "crypto" "BTC" h
  exact ⟨h, main.1, main.2.2.2.2.1⟩

/-- C3: withdraw(amount) with 0 < amount fails with InsufficientFunds and
leaves the state (snapshot and log) untouched when amount exceeds
availableBalance, and otherwise succeeds, decreasing totalBalance and
availableBalance by amount while appending one withdrawal transaction. -/
theorem withdraw_spec (s : LedgerState) (q : ℤ) (hq : 0 < q) :
    (s.account.availableBalance < q →
      withdraw s (NumInput.fin q) = Except.error LedgerError.InsufficientFunds ∧
      applyOp s (Op.wd (NumInput.fin q)) = s) ∧
    (q ≤ s.account.availableBalance →
      withdraw s (NumInput.fin q) =
        Except.ok ⟨⟨s.account.totalBalance - q, s.account.availableBalance - q,
            s.account.allocatedBalance, s.account.allocations⟩,
          s.log ++ [⟨s.nextId, TxKind.withdrawal, q, none, none⟩], s.nextId + 1⟩) := by
  have hva : validateAmount (NumInput.fin q) = Except.ok q := by
    simp only [validateAmount, if_pos hq]
  constructor
  · intro hgt
    have he : withdraw s (NumInput.fin q) = Except.error LedgerError.InsufficientFunds := by
      simp only [withdraw, hva, if_neg (not_le.mpr hgt)]
    exact ⟨he, by simp [applyOp, he]⟩
  · intro hle
    simp only [withdraw, hva, if_pos hle]

/-- Concrete instance of the C3 theorem, the scenario of the spec: after
deposit(1000) and allocate(250, crypto, BTC) the available balance is 750,
withdraw(800) fails with InsufficientFunds and changes nothing, and a
covered withdrawal of 400 after deposit(1000) succeeds and moves both
totalBalance and availableBalance from 1000 to 600. -/
theorem withdraw_spec_witness :
    withdraw (runOps [Op.dep (NumInput.fin 1000), Op.alloc (NumInput.fin 250) "crypto" "BTC"])
        (NumInput.fin 800) = Except.error LedgerError.InsufficientFunds ∧
    applyOp (runOps [Op.dep (NumInput.fin 1000), Op.alloc (NumInput.fin 250) "crypto" "BTC"])
        (Op.wd (NumInput.fin 800)) =
      runOps [Op.dep (NumInput.fin 1000), Op.alloc (NumInput.fin 250) "crypto" "BTC"] ∧
    (∃ t : LedgerState, withdraw (runOps [Op.dep (NumInput.fin 1000)]) (NumInput.fin 400) =
        Except.ok t ∧
      t.account.totalBalance = 600 ∧ t.account.availableBalance = 600) := by
  have h1 := (withdraw_spec
    (runOps [Op.dep (NumInput.fin 1000), Op.alloc (NumInput.fin 250) "crypto" "BTC"])
    800 (by decide)).1 (by decide)
  have h2 := (withdraw_spec (runOps [Op.dep (NumInput.fin 1000)]) 400 (by decide)).2 (by decide)
  exact ⟨h1.1, h1.2, ⟨_, h2, by decide, by decide⟩⟩

theorem lookupAlloc_removeAlloc (l : List ((String × String) × ℤ)) (key : String × String) :
    lookupAlloc (removeAlloc l key) key = none := by
  induction l with
  | nil => rfl
  | cons e rest ih =>
      simp only [removeAlloc]
      by_cases he : e.1 = key
      · simp only [if_pos he]
        exact ih
      · simp only [if_neg he, lookupAlloc]
        exact ih

theorem lookupAlloc_setAlloc (l : List ((String × String) × ℤ)) (key : String × String) (v : ℤ) :
    lookupAlloc (setAlloc l key v) key = some v := by
  induction l with
  | nil => simp [setAlloc, lookupAlloc]
  | cons e rest ih =>
      simp only [setAlloc]
      by_cases he : e.1 = key
      · simp only [if_pos he, lookupAlloc]
        simp
      · simp only [if_neg he, lookupAlloc]
        exact ih

/-- C4: deallocate(amount, assetType, assetId) with 0 < amount fails with
NoSuchAllocation when no entry exists for the key (state untouched), fails
with InsufficientAllocation when the entry value is smaller than amount
(state untouched), and otherwise moves amount from allocatedBalance back
to availableBalance, decrements the entry, and removes the entry exactly
when the resulting value is 0. -/
theorem deallocate_spec (s : LedgerState) (q : ℤ) (x y : String) (hq : 0 < q) :
    (lookupAlloc s.account.allocations (x, y) = none →
      deallocate s (NumInput.fin q) x y = Except.error LedgerError.NoSuchAllocation ∧
      applyOp s (Op.dealloc (NumInput.fin q) x y) = s) ∧
    (∀ v : ℤ, lookupAlloc s.account.allocations (x, y) = some v →
      (v < q →
        deallocate s (NumInput.fin q) x y = Except.error LedgerError.InsufficientAllocation ∧
        applyOp s (Op.dealloc (NumInput.fin q) x y) = s) ∧
      (q ≤ v → ∃ t : LedgerState,
        deallocate s (NumInput.fin q) x y = Except.ok t ∧
        t.account.allocatedBalance = s.account.allocatedBalance - q ∧
        t.account.availableBalance = s.account.availableBalance + q ∧
        t.account.totalBalance = s.account.totalBalance ∧
        lookupAlloc t.account.allocations (x, y) =
          (if v - q = 0 then none else some (v - q)))) := by
  have hva : validateAmount (NumInput.fin q) = Except.ok q := by
    simp only [validateAmount, if_pos hq]
  constructor
  · intro hnone
    have he : deallocate s (NumInput.fin q) x y =
        Except.error LedgerError.NoSuchAllocation := by
      simp only [deallocate, hva, hnone]
    exact ⟨he, by simp [applyOp, he]⟩
  · intro v hsome
    constructor
    · intro hlt
      have he : deallocate s (NumInput.fin q) x y =
          Except.error LedgerError.InsufficientAllocation := by
        simp only [deallocate, hva, hsome, if_pos hlt]
      exact ⟨he, by simp [applyOp, he]⟩
    · intro hle
      have hok : deallocate s (NumInput.fin q) x y =
          Except.ok ⟨⟨s.account.totalBalance, s.account.availableBalance + q,
              s.account.allocatedBalance - q,
              if v - q = 0 then removeAlloc s.account.allocations (x, y)
              else setAlloc s.account.allocations (x, y) (v - q)⟩,
            s.log ++ [⟨s.nextId, TxKind.deallocation, q, some x, some y⟩],
            s.nextId + 1⟩ := by
        simp only [deallocate, hva, hsome, if_neg (not_lt.mpr hle)]
      refine ⟨_, hok, rfl, rfl, rfl, ?_⟩
      by_cases hz : v - q = 0
      · simp only [if_pos hz, lookupAlloc_removeAlloc]
      · simp only [if_neg hz, lookupAlloc_setAlloc]

/-- Concrete instance of the C4 theorem, matching the spec scenarios: on
the account with allocation map {(crypto,BTC): 250}, deallocate(100,
crypto, ETH) fails with NoSuchAllocation leaving the state unchanged,
deallocate(300, crypto, BTC) fails with InsufficientAllocation, and
deallocate(250, crypto, BTC) succeeds, restores available 1000 and
allocated 0, and removes the BTC entry from the map. -/
theorem deallocate_spec_witness :
    deallocate (runOps [Op.dep (NumInput.fin 1000), Op.alloc (NumInput.fin 250) "crypto" "BTC"])
        (NumInput.fin 100) "crypto" "ETH" = Except.error LedgerError.NoSuchAllocation ∧
    applyOp (runOps [Op.dep (NumInput.fin 1000), Op.alloc (NumInput.fin 250) "crypto" "BTC"])
        (Op.dealloc (NumInput.fin 100) "crypto" "ETH") =
      runOps [Op.dep (NumInput.fin 1000), Op.alloc (NumInput.fin 250) "crypto" "BTC"] ∧
    deallocate (runOps [Op.dep (NumInput.fin 1000), Op.alloc (NumInput.fin 250) "crypto" "BTC"])
        (NumInput.fin 300) "crypto" "BTC" = Except.error LedgerError.InsufficientAllocation ∧
    (∃ t : LedgerState,
      deallocate (runOps [Op.dep (NumInput.fin 1000), Op.alloc (NumInput.fin 250) "crypto" "BTC"])
          (NumInput.fin 250) "crypto" "BTC" = Except.ok t ∧
      t.account.availableBalance = 1000 ∧ t.account.allocatedBalance = 0 ∧
      lookupAlloc t.account.allocations ("crypto", "BTC") = none) := by
  have h1 := ((deallocate_spec
    (runOps [Op.dep (NumInput.fin 1000), Op.alloc (NumInput.fin 250) "crypto" "BTC"])
    100 "crypto" "ETH" (by decide)).1 (by decide))
  have h2 := (((deallocate_spec
    (runOps [Op.dep (NumInput.fin 1000), Op.alloc (NumInput.fin 250) "crypto" "BTC"])
    300 "crypto" "BTC" (by decide)).2 250 (by decide)).1 (by decide)).1
  obtain ⟨t, hok, halloc, havail, htotal, hmap⟩ := ((deallocate_spec
    (runOps [Op.dep (NumInput.fin 1000), Op.alloc (NumInput.fin 250) "crypto" "BTC"])
    250 "crypto" "BTC" (by decide)).2 250 (by decide)).2 (by decide)
  refine ⟨h1.1, h1.2, h2, t, hok, ?_, ?_, ?_⟩
  · rw [havail]; decide
  · rw [halloc]; decide
  · rw [hmap]; decide

/-- C5: deposit(amount) with 0 < amount always succeeds, increases both
totalBalance and availableBalance by amount, leaves allocatedBalance and
the allocation map unchanged, appends exactly one deposit transaction,
and returns the updated snapshot. -/
theorem deposit_spec (s : LedgerState) (q : ℤ) (hq : 0 < q) :
    deposit s (NumInput.fin q) =
      Except.ok ⟨⟨s.account.totalBalance + q, s.account.availableBalance + q,
          s.account.allocatedBalance, s.account.allocations⟩,
        s.log ++ [⟨s.nextId, TxKind.deposit, q, none, none⟩], s.nextId + 1⟩ := by
  have hva : validateAmount (NumInput.fin q) = Except.ok q := by
    simp only [validateAmount, if_pos hq]
  simp only [deposit, hva]

/-- Concrete instance of the C5 theorem, the first scenario of the spec:
deposit(1000) on the zero account yields the snapshot {total:1000,
available:1000, allocated:0} and a log holding exactly one deposit
transaction for 1000. -/
theorem deposit_spec_witness :
    ∃ t : LedgerState, deposit zeroState (NumInput.fin 1000) = Except.ok t ∧
      t.account = ⟨1000, 1000, 0, []⟩ ∧
      t.log = [⟨1, TxKind.deposit, 1000, none, none⟩] := by
  have h := deposit_spec zeroState 1000 (by decide)
  exact ⟨_, h, by decide, by decide⟩

/-- One row of the mock transaction list of the TransactionHistory
component.  Fields mirror the Transaction interface of the source:
id (a numeric string there, a natural number here, same order),
account_id, amount, transaction_type (a string there and here), status,
created_at (an ISO timestamp string there, the same instant as epoch
milliseconds here, same order), and the optional asset_type, asset_id and
notes fields. -/
structure MockTxn where
  mid : ℕ
  accountId : String
  amount : ℤ
  transactionType : String
  status : String
  createdAt : ℤ
  assetType : Option String
  assetId : Option String
  notes : Option String
deriving DecidableEq

/-- The hard-coded list the TransactionHistory component displays, in
display order: id 1, a deposit of 1000 created at the current time `now`;
id 2, an allocation of 250 for (crypto, BTC) created one day earlier
(now - 86400000 ms); id 3, a withdrawal of 100 created two days earlier
(now - 172800000 ms). -/
def mockTransactions (aid : String) (now : ℤ) : List MockTxn :=
  [⟨1, aid, 1000, "deposit", "completed", now, none, none, some "Initial deposit"⟩,
   ⟨2, aid, 250, "allocation", "completed", now - 86400000, some "crypto", some "BTC",
     some "Allocated for Bitcoin trading"⟩,
   ⟨3, aid, 100, "withdrawal", "completed", now - 172800000, none, none,
     some "User withdrawal"⟩]

/-- True iff consecutive rows have non-decreasing ids. -/
def sortedAscById : List MockTxn → Bool
  | [] => true
  | [_] => true
  | a :: b :: rest => decide (a.mid ≤ b.mid) && sortedAscById (b :: rest)

/-- True iff consecutive rows have non-decreasing creation times: the
ascending-timestamp order the spec requires of getTransactionHistory. -/
def sortedAscByCreatedAt : List MockTxn → Bool
  | [] => true
  | [_] => true
  | a :: b :: rest => decide (a.createdAt ≤ b.createdAt) && sortedAscByCreatedAt (b :: rest)

/-- True iff consecutive rows have strictly decreasing creation times
(newest first). -/
def sortedDescByCreatedAt : List MockTxn → Bool
  | [] => true
  | [_] => true
  | a :: b :: rest => decide (b.createdAt < a.createdAt) && sortedDescByCreatedAt (b :: rest)

/-- C7 counterexample: the transaction list the history view displays is
not ordered by ascending timestamp; at the concrete clock value
172800000 the first row (created at 172800000) precedes the second
(created at 86400000). -/
theorem history_not_ascending_by_timestamp :
    sortedAscByCreatedAt (mockTransactions "acct-1" 172800000) = false := by decide

/-- C7 amended: the shipped history surface is the hard-coded mock list of
the TransactionHistory component; for every account id and clock value it
is ordered ascending by id but strictly descending by timestamp (newest
first), it applies no filter, and it has no failure path. -/
theorem history_order (aid : String) (now : ℤ) :
    sortedAscById (mockTransactions aid now) = true ∧
    sortedDescByCreatedAt (mockTransactions aid now) = true := by
  refine ⟨rfl, ?_⟩
  simp [mockTransactions, sortedDescByCreatedAt]

/-- Well-formedness of a ledger transaction record per the spec data
model: strictly positive unsigned amount, and asset fields present
exactly for allocation and deallocation, absent for deposit and
withdrawal. -/
def txnWellFormed (t : Txn) : Prop :=
  0 < t.amount ∧
    ((t.assetType.isSome = true ∧ t.assetId.isSome = true) ↔
      (t.kind = TxKind.allocation ∨ t.kind = TxKind.deallocation)) ∧
    ((t.assetType = none ∧ t.assetId = none) ↔
      (t.kind = TxKind.deposit ∨ t.kind = TxKind.withdrawal))

/-- Well-formedness of a displayed history row: strictly positive
unsigned amount, and asset_type/asset_id present exactly when the
transaction_type string is allocation or deallocation. -/
def mockTxnShape (t : MockTxn) : Prop :=
  0 < t.amount ∧
    ((t.assetType.isSome = true ∧ t.assetId.isSome = true) ↔
      (t.transactionType = "allocation" ∨ t.transactionType = "deallocation")) ∧
    ((t.assetType = none ∧ t.assetId = none) ↔
      (t.transactionType = "deposit" ∨ t.transactionType = "withdrawal"))

theorem log_wf_applyOp (s : LedgerState) (op : Op)
    (h : ∀ t ∈ s.log, txnWellFormed t) :
    ∀ t ∈ (applyOp s op).log, txnWellFormed t := by
  cases op with
  | dep a =>
      simp only [applyOp]
      cases hd : deposit s a with
      | ok u =>
          obtain ⟨q, hq, _, hu⟩ := deposit_ok_inv s u a hd
          subst hu
          intro t ht
          rcases List.mem_append.mp ht with ht | ht
          · exact h t ht
          · rcases List.mem_singleton.mp ht with rfl
            exact ⟨hq, by simp, by simp⟩
      | error e => exact h
  | wd a =>
      simp only [applyOp]
      cases hd : withdraw s a with
      | ok u =>
          obtain ⟨q, hq, _, _, hu⟩ := withdraw_ok_inv s u a hd
          subst hu
          intro t ht
          rcases List.mem_append.mp ht with ht | ht
          · exact h t ht
          · rcases List.mem_singleton.mp ht with rfl
            exact ⟨hq, by simp, by simp⟩
      | error e => exact h
  | alloc a x y =>
      simp only [applyOp]
      cases hd : allocate s a x y with
      | ok u =>
          obtain ⟨q, hq, _, _, hu⟩ := allocate_ok_inv s u a x y hd
          subst hu
          intro t ht
          rcases List.mem_append.mp ht with ht | ht
          · exact h t ht
          · rcases List.mem_singleton.mp ht with rfl
            exact ⟨hq, by simp, by simp⟩
      | error e => exact h
  | dealloc a x y =>
      simp only [applyOp]
      cases hd : deallocate s a x y with
      | ok u =>
          obtain ⟨q, v, hq, _, _, _, hu⟩ := deallocate_ok_inv s u a x y hd
          subst hu
          intro t ht
          rcases List.mem_append.mp ht with ht | ht
          · exact h t ht
          · rcases List.mem_singleton.mp ht with rfl
            exact ⟨hq, by simp, by simp⟩
      | error e => exact h

theorem log_wf_foldl (ops : List Op) :
    ∀ s : LedgerState, (∀ t ∈ s.log, txnWellFormed t) →
      ∀ t ∈ (ops.foldl applyOp s).log, txnWellFormed t := by
  induction ops with
  | nil => intro s h; exact h
  | cons op rest ih =>
      intro s h
      exact ih (applyOp s op) (log_wf_applyOp s op h)

/-- C8: every transaction record in the repository has a strictly
positive unsigned amount and carries asset fields exactly when its kind
is allocation or deallocation — both for the rows the shipped history
view displays (for any account id and clock value) and for every record
the modelled ledger engine ever appends to its log. -/
theorem transaction_record_shape (aid : String) (now : ℤ) (ops : List Op) :
    (∀ t ∈ mockTransactions aid now, mockTxnShape t) ∧
    (∀ t ∈ (runOps ops).log, txnWellFormed t) := by
  constructor
  · intro t ht
    simp only [mockTransactions, List.mem_cons, List.not_mem_nil, or_false] at ht
    rcases ht with ht | ht | ht <;> subst ht <;> simp [mockTxnShape]
  · refine log_wf_foldl ops zeroState ?_
    intro t ht
    simp [zeroState] at ht

/-- Concrete instance of the C8 theorem: the allocation row of the mock
list carries its asset fields, and the deposit transaction the modelled
engine appends for deposit(1000) is well-formed. -/
theorem transaction_record_shape_witness :
    mockTxnShape ⟨2, "acct-1", 250, "allocation", "completed", 86400000, some "crypto",
      some "BTC", some "Allocated for Bitcoin trading"⟩ ∧
    txnWellFormed ⟨1, TxKind.deposit, 1000, none, none⟩ :=
  ⟨(transaction_record_shape "acct-1" 172800000 []).1 _ (by decide),
   (transaction_record_shape "acct-1" 172800000 [Op.dep (NumInput.fin 1000)]).2 _ (by decide)⟩

/-- Decides the anchored pattern of digits, at most one decimal point,
then digits, used by both amount-change handlers: a string matches iff it
is a run of digits optionally followed by one decimal point and another
run of digits (the empty string matches too).  Strings are modelled as
their character lists. -/
def matchesAmountRegex : List Char → Bool
  | [] => true
  | c :: rest =>
      if c.isDigit then matchesAmountRegex rest
      else if c = '.' then rest.all Char.isDigit
      else false

/-- The handleAmountChange guard of AccountManagement.tsx (lines 87-92)
and of the TradingAllocation component: the stored amount string is
replaced by the typed value only when that value is empty or matches the
digits pattern; otherwise the stored string is kept. -/
def handleAmountChange (stored value : List Char) : List Char :=
  if value = [] ∨ matchesAmountRegex value = true then value else stored

/-- The amount string held in component state after a sequence of input
events, starting from the initial empty string. -/
def storedAmount (events : List (List Char)) : List Char :=
  events.foldl handleAmountChange []

/-- The fractional digit run of a string: the digits right after the
first decimal point, when the character after the integer digit run is a
decimal point. -/
def fracDigits (l : List Char) : List Char :=
  match l.dropWhile Char.isDigit with
  | '.' :: r => r.takeWhile Char.isDigit
  | _ => []

/-- Numeric value of a digit run, most significant first. -/
def digitsToNat : List Char → ℕ → ℕ
  | [], acc => acc
  | c :: rest, acc => digitsToNat rest (10 * acc + (c.toNat - 48))

/-- JavaScript parseFloat restricted to strings of the digits pattern:
none (NaN) when the string holds no digit at all (empty or a lone
decimal point), otherwise the non-negative decimal value
intPart + fracPart / 10 ^ fracLength. -/
def parseAmount (l : List Char) : Option ℚ :=
  if l.takeWhile Char.isDigit = [] ∧ fracDigits l = [] then none
  else some ((digitsToNat (l.takeWhile Char.isDigit) 0 : ℚ) +
    (digitsToNat (fracDigits l) 0 : ℚ) / (10 : ℚ) ^ (fracDigits l).length)

theorem matchesAmountRegex_chars (l : List Char) (h : matchesAmountRegex l = true) :
    ∀ c ∈ l, c.isDigit = true ∨ c = '.' := by
  induction l with
  | nil => intro c hc; cases hc
  | cons a rest ih =>
      intro c hc
      simp only [matchesAmountRegex] at h
      by_cases hd : a.isDigit
      · rw [if_pos hd] at h
        rcases List.mem_cons.mp hc with rfl | hc
        · exact Or.inl hd
        · exact ih h c hc
      · rw [if_neg hd] at h
        by_cases hdot : a = '.'
        · rw [if_pos hdot] at h
          rcases List.mem_cons.mp hc with rfl | hc
          · exact Or.inr hdot
          · exact Or.inl (List.all_eq_true.mp h c hc)
        · rw [if_neg hdot] at h
          cases h

theorem storedAmount_ok (events : List (List Char)) :
    ∀ s0 : List Char, (s0 = [] ∨ matchesAmountRegex s0 = true) →
      (List.foldl handleAmountChange s0 events = [] ∨
        matchesAmountRegex (List.foldl handleAmountChange s0 events) = true) := by
  induction events with
  | nil => intro s0 h; exact h
  | cons v rest ih =>
      intro s0 h
      simp only [List.foldl]
      apply ih
      unfold handleAmountChange
      split
      · next hcond => exact hcond
      · exact h

theorem parseAmount_nonneg (l : List Char) (q : ℚ) (h : parseAmount l = some q) :
    0 ≤ q := by
  unfold parseAmount at h
  split at h
  · cases h
  · rw [Option.some.injEq] at h
    subst h
    have h1 : (0:ℚ) ≤ (digitsToNat (l.takeWhile Char.isDigit) 0 : ℚ) := by positivity
    have h2 : (0:ℚ) ≤ (digitsToNat (fracDigits l) 0 : ℚ) / (10 : ℚ) ^ (fracDigits l).length := by
      positivity
    linarith

/-- C10: whatever sequence of strings is typed into a deposit, withdraw
or allocation amount field, the stored amount string is empty or matches
the digits pattern, never contains a minus sign or an exponent marker,
and parsing it yields either NaN (none) or a non-negative value — so a
negative amount can never be submitted from these forms. -/
theorem amount_input_guard (events : List (List Char)) :
    (storedAmount events = [] ∨ matchesAmountRegex (storedAmount events) = true) ∧
    '-' ∉ storedAmount events ∧
    'e' ∉ storedAmount events ∧ 'E' ∉ storedAmount events ∧
    (∀ q : ℚ, parseAmount (storedAmount events) = some q → 0 ≤ q) := by
  have hok : storedAmount events = [] ∨ matchesAmountRegex (storedAmount events) = true :=
    storedAmount_ok events [] (Or.inl rfl)
  have hch : ∀ c ∈ storedAmount events, c.isDigit = true ∨ c = '.' := by
    rcases hok with h | h
    · rw [h]; intro c hc; cases hc
    · exact matchesAmountRegex_chars _ h
  refine ⟨hok, ?_, ?_, ?_, fun q hq => parseAmount_nonneg _ q hq⟩
  · intro hmem
    rcases hch _ hmem with h | h
    · exact absurd h (by decide)
    · exact absurd h (by decide)
  · intro hmem
    rcases hch _ hmem with h | h
    · exact absurd h (by decide)
    · exact absurd h (by decide)
  · intro hmem
    rcases hch _ hmem with h | h
    · exact absurd h (by decide)
    · exact absurd h (by decide)

/-- Concrete instance of the C10 theorem: typing the rejected string -5
leaves the stored amount without any minus sign (the update is refused),
and the accepted string 5 parses to the non-negative value 5. -/
theorem amount_input_guard_witness :
    '-' ∉ storedAmount [['-', '5']] ∧
    (∃ q : ℚ, parseAmount (storedAmount [['5']]) = some q ∧ 0 ≤ q) :=
  ⟨(amount_input_guard [['-', '5']]).2.1,
   ⟨_, rfl, (amount_input_guard [['5']]).2.2.2.2 _ rfl⟩⟩

end QTAI
